import Mathlib

/-!
Verification of the MAX6675_Thermocouple driver (MAX6675_Thermocouple.cpp/.h).

Modelling conventions:
* A C++ `double` is modelled exactly as a rational number, with `none`
  standing for IEEE-754 NaN.  The driver only ever produces quarter-degree
  values and sums of such values divided by the window size, all exact in ℚ.
* `millis()` timestamps are 32-bit unsigned counters; the subtraction
  `now - lastUpdate` is modelled as wraparound subtraction modulo 2^32.
* The bit-banged protocol read is modelled by passing `update` the value
  that `readValue()` returns for that invocation (it depends only on the
  externally sampled SO-line bits, which are modelled explicitly for the
  decode theorems).
-/

namespace MAX6675

/-- A C++ `double`, modelled exactly: `some q` is the finite value `q`,
`none` is NaN. -/
abbrev DD := Option ℚ

/-- The `NAN` macro. -/
def nanDD : DD := none

/-- IEEE-754 `!=` on doubles: a comparison involving NaN is unordered, so
`x != y` evaluates to true whenever either side is NaN (in particular
`x != NAN` is true for every `x`, including NaN itself). -/
def dne (a b : DD) : Bool :=
  match a, b with
  | none, _ => true
  | _, none => true
  | some x, some y => x != y

/-- IEEE-754 `+` on doubles, NaN-propagating. -/
def dadd : DD → DD → DD
  | some a, some b => some (a + b)
  | _, _ => none

/-- IEEE-754 `*` on doubles, NaN-propagating. -/
def dmul : DD → DD → DD
  | some a, some b => some (a * b)
  | _, _ => none

/-- IEEE-754 `/` on doubles (only ever used with nonzero finite divisors in
this driver), NaN-propagating. -/
def ddiv : DD → DD → DD
  | some a, some b => some (a / b)
  | _, _ => none

/-- `value / this->readingsNumber`: division of a double by the unsigned
window size (converted to double). -/
def ddivN (a : DD) (n : ℕ) : DD := a.map (fun q => q / (n : ℚ))

/-- `MAX6675_DEFAULT_READINGS_NUMBER` from the header. -/
def MAX6675_DEFAULT_READINGS_NUMBER : ℕ := 5

/-- `MAX6675_DEFAULT_DELAY_TIME` from the header. -/
def MAX6675_DEFAULT_DELAY_TIME : ℕ := 250

/-- One instance of `MAX6675_Thermocouple`, together with the function-local
`static unsigned long lastUpdate` of `update()` (static storage duration,
initialized to 0; modelled as part of the single-instance state, since the
verification considers one device). The pin numbers are omitted: they only
parameterize the external I/O, which is modelled by the reading passed to
`update`. -/
structure Thermocouple where
  readingsNumber : ℕ
  delayTime : ℕ
  dataPoints : List DD
  meanTempC : DD
  lastUpdate : ℕ
  deriving DecidableEq

/-- `validate(data, min) = (data > 0) ? data : min`, at the two unsigned
instantiations used by the setters. -/
def validate (data min : ℕ) : ℕ := if 0 < data then data else min

/-- `setReadingsNumber`: validates the new window size and replaces the
sample deque with a fresh empty one.  Note that `meanTempC` is not touched. -/
def setReadingsNumber (s : Thermocouple) (newReadingsNumber : ℕ) : Thermocouple :=
  { s with
    readingsNumber := validate newReadingsNumber MAX6675_DEFAULT_READINGS_NUMBER,
    dataPoints := [] }

/-- `setDelayTime`: validates and stores the new delay. -/
def setDelayTime (s : Thermocouple) (newDelayTime : ℕ) : Thermocouple :=
  { s with delayTime := validate newDelayTime MAX6675_DEFAULT_DELAY_TIME }

/-- The five-argument constructor: validates both parameters (via the
setters) and starts with an empty deque.  The constructor never initializes
`meanTempC`, so its initial contents are indeterminate: `initMean` stands
for that arbitrary initial value.  `lastUpdate` is the function-local static
of `update()`, zero-initialized at program start. -/
def mkThermocouple (readingsNumber delayTime : ℕ) (initMean : DD) : Thermocouple :=
  { readingsNumber := validate readingsNumber MAX6675_DEFAULT_READINGS_NUMBER,
    delayTime := validate delayTime MAX6675_DEFAULT_DELAY_TIME,
    dataPoints := [],
    meanTempC := initMean,
    lastUpdate := 0 }

/-- 2^32, the modulus of `unsigned long` timestamps on the target. -/
def U32 : ℕ := 4294967296

/-- Wraparound 32-bit unsigned subtraction `now - lastUpdate`. -/
def usub32 (a b : ℕ) : ℕ := (a % U32 + U32 - b % U32) % U32

/-- The time gate `(now - lastUpdate) > this->delayTime` of `update()`:
true exactly when the call performs a protocol read. -/
def fires (s : Thermocouple) (now : ℕ) : Bool :=
  decide (s.delayTime < usub32 now s.lastUpdate)

/-- `recalculate()`: NaN sentinel unless the deque holds exactly
`readingsNumber` entries, else the plain sum of the (pre-divided) entries —
no division happens here. -/
def recalculate (s : Thermocouple) : Thermocouple :=
  if s.dataPoints.length ≠ s.readingsNumber then { s with meanTempC := nanDD }
  else { s with meanTempC := s.dataPoints.foldl dadd (some 0) }

/-- The body of the gated branch of `update()` once the reading passed the
`value != NAN` test: pop the front when at (or above) capacity, push the
reading pre-divided by the window size, recompute the mean. -/
def pushSample (s : Thermocouple) (value : DD) : Thermocouple :=
  let popped :=
    if s.readingsNumber ≤ s.dataPoints.length then s.dataPoints.tail else s.dataPoints
  recalculate { s with dataPoints := popped ++ [ddivN value s.readingsNumber] }

/-- `update()`: `value` is what `readValue()` returns for this invocation.
The guard `value != NAN` is IEEE `!=` (see `dne`). -/
def update (s : Thermocouple) (now : ℕ) (value : DD) : Thermocouple :=
  if fires s now then
    let s1 := { s with lastUpdate := now }
    if dne value nanDD then pushSample s1 value else s1
  else s

/-- `readCelsius()`: returns the cached mean. -/
def readCelsius (s : Thermocouple) : DD := s.meanTempC

/-- `celsiusToKelvin(c) = c + 273.15`. -/
def celsiusToKelvin (celsius : DD) : DD := dadd celsius (some 273.15)

/-- `readKelvin()`. -/
def readKelvin (s : Thermocouple) : DD := celsiusToKelvin (readCelsius s)

/-- `celsiusToFahrenheit(c) = c * 9.0 / 5.0 + 32`. -/
def celsiusToFahrenheit (celsius : DD) : DD :=
  dadd (ddiv (dmul celsius (some 9)) (some 5)) (some 32)

/-- `readFahrenheit()`. -/
def readFahrenheit (s : Thermocouple) : DD := celsiusToFahrenheit (readCelsius s)

/-- Feed a sequence of protocol readings through `update`, each call issued
at the first instant at which the gate reopens
(`lastUpdate + delayTime + 1`, modulo the 32-bit timer). -/
def runFired (s : Thermocouple) (rs : List DD) : Thermocouple :=
  rs.foldl (fun t r => update t ((t.lastUpdate + t.delayTime + 1) % U32) r) s

/-- `spiread()`: clocks in 8 bits from the SO line, most significant first.
`so` is the sequence of levels sampled on the 8 falling clock edges; the
`k`-th sampled level contributes bit `7 - k` (`value |= (1 << i)` with `i`
running from 7 down to 0). -/
def spiread (so : List Bool) : ℕ :=
  (List.range 8).foldl (fun value k =>
    if so.getD k false then value ||| (1 <<< (7 - k)) else value) 0

/-- `readValue()`: two `spiread()` calls assemble a 16-bit word from the 16
sampled SO levels (`value <<= 8; value |= spiread()`); if bit 2 (mask
`0x4`, the open-thermocouple flag) is set the result is `NAN`, otherwise
the word is shifted right by 3 and scaled by 0.25 degrees Celsius. -/
def readValue (so : List Bool) : DD :=
  let value := (spiread (so.take 8)) <<< 8 ||| spiread (so.drop 8)
  if value &&& 4 ≠ 0 then nanDD
  else some (((value >>> 3 : ℕ) : ℚ) * 0.25)

/-- The 8 levels that clock in the byte `x`, most significant bit first. -/
def byteBits (x : ℕ) : List Bool := (List.range 8).map (fun k => x.testBit (7 - k))

/-- The 16 levels that clock in the word `w`, most significant bit first. -/
def bitsOf (w : ℕ) : List Bool := (List.range 16).map (fun k => w.testBit (15 - k))

/-- States reachable from construction through the public operations
(`readCelsius`/`readKelvin`/`readFahrenheit` do not mutate the state). -/
inductive Reachable : Thermocouple → Prop where
  | intro (n d : ℕ) (im : DD) : Reachable (mkThermocouple n d im)
  | stepUpdate {s : Thermocouple} (now : ℕ) (v : DD) :
      Reachable s → Reachable (update s now v)
  | stepSetReadingsNumber {s : Thermocouple} (n : ℕ) :
      Reachable s → Reachable (setReadingsNumber s n)
  | stepSetDelayTime {s : Thermocouple} (t : ℕ) :
      Reachable s → Reachable (setDelayTime s t)

/-- `x != NAN` is true for every double `x`, NaN included: the guard in
`update()` never rejects a reading. -/
lemma dne_nanDD (v : DD) : dne v nanDD = true := by
  cases v <;> rfl

/-- `validate` never returns zero when the fallback is positive; at both
call sites the fallback (5 resp. 250) is positive. -/
lemma validate_pos {data min : ℕ} (hm : 0 < min) : 0 < validate data min := by
  unfold validate
  split <;> omega

/-- `recalculate` does not touch the deque. -/
lemma recalculate_dataPoints (s : Thermocouple) :
    (recalculate s).dataPoints = s.dataPoints := by
  unfold recalculate
  split <;> rfl

/-- `recalculate` does not touch the window size. -/
lemma recalculate_readingsNumber (s : Thermocouple) :
    (recalculate s).readingsNumber = s.readingsNumber := by
  unfold recalculate
  split <;> rfl

/-- `recalculate` does not touch the delay. -/
lemma recalculate_delayTime (s : Thermocouple) :
    (recalculate s).delayTime = s.delayTime := by
  unfold recalculate
  split <;> rfl

/-- `recalculate` does not touch the scheduler timestamp. -/
lemma recalculate_lastUpdate (s : Thermocouple) :
    (recalculate s).lastUpdate = s.lastUpdate := by
  unfold recalculate
  split <;> rfl

/-- The mean after `recalculate`: the sum of the stored entries when the
deque holds exactly `readingsNumber` of them, NaN otherwise. -/
lemma recalculate_meanTempC (s : Thermocouple) :
    (recalculate s).meanTempC =
      if s.dataPoints.length = s.readingsNumber
      then s.dataPoints.foldl dadd (some 0) else nanDD := by
  unfold recalculate
  split <;> rename_i h
  · rfl
  · rw [if_pos (not_ne_iff.mp h)]

/-- A gated `update` call is the identity on the state. -/
lemma update_not_fired {s : Thermocouple} {now : ℕ} (v : DD)
    (hf : fires s now = false) : update s now v = s := by
  unfold update
  rw [hf]
  rfl

/-- An `update` call that passes the gate: since `value != NAN` always
holds, it unconditionally pops at capacity, pushes the pre-divided reading
and recalculates. -/
lemma update_fired {s : Thermocouple} {now : ℕ} (v : DD)
    (hf : fires s now = true) :
    update s now v =
      recalculate
        { s with
          lastUpdate := now,
          dataPoints :=
            (if s.readingsNumber ≤ s.dataPoints.length
             then s.dataPoints.tail else s.dataPoints) ++
              [ddivN v s.readingsNumber] } := by
  unfold update
  rw [hf, dne_nanDD]
  rfl

/-- `update` never changes the window size. -/
lemma update_readingsNumber (s : Thermocouple) (now : ℕ) (v : DD) :
    (update s now v).readingsNumber = s.readingsNumber := by
  cases hf : fires s now
  · rw [update_not_fired v hf]
  · rw [update_fired v hf, recalculate_readingsNumber]

/-- `update` never changes the delay. -/
lemma update_delayTime (s : Thermocouple) (now : ℕ) (v : DD) :
    (update s now v).delayTime = s.delayTime := by
  cases hf : fires s now
  · rw [update_not_fired v hf]
  · rw [update_fired v hf, recalculate_delayTime]

/-- After an `update` that passed the gate, `lastUpdate` is the call's
timestamp. -/
lemma update_fired_lastUpdate {s : Thermocouple} {now : ℕ} (v : DD)
    (hf : fires s now = true) : (update s now v).lastUpdate = now := by
  rw [update_fired v hf, recalculate_lastUpdate]

/-- The gate reopens exactly when the wraparound difference exceeds the
delay; in particular it is open at `lastUpdate + delayTime + 1` whenever
`delayTime + 1` does not overflow the 32-bit timer. -/
lemma fires_sched (s : Thermocouple) (h : s.delayTime + 1 < U32) :
    fires s ((s.lastUpdate + s.delayTime + 1) % U32) = true := by
  simp only [fires, usub32, U32, decide_eq_true_eq] at h ⊢
  omega

/-- The deque after a fired push is the `readingsNumber`-bounded suffix of
the old deque with the new element appended. -/
lemma step_points (s : Thermocouple) (x : DD) (hw : 0 < s.readingsNumber)
    (hlen : s.dataPoints.length ≤ s.readingsNumber) :
    (if s.readingsNumber ≤ s.dataPoints.length then s.dataPoints.tail else s.dataPoints)
        ++ [x] =
      (s.dataPoints ++ [x]).drop (s.dataPoints.length + 1 - s.readingsNumber) := by
  by_cases hc : s.readingsNumber ≤ s.dataPoints.length
  · rw [if_pos hc,
      List.drop_append_of_le_length (by omega),
      show s.dataPoints.length + 1 - s.readingsNumber = 1 by omega, List.drop_one]
  · rw [if_neg hc, show s.dataPoints.length + 1 - s.readingsNumber = 0 by omega,
      List.drop_zero]

/-- The mean set by a fired `update`: the sum of the resulting deque when
it is full, NaN otherwise. -/
lemma update_fired_mean {s : Thermocouple} {now : ℕ} (v : DD)
    (hf : fires s now = true) :
    (update s now v).meanTempC =
      if (update s now v).dataPoints.length = s.readingsNumber
      then (update s now v).dataPoints.foldl dadd (some 0) else nanDD := by
  rw [update_fired v hf, recalculate_meanTempC, recalculate_dataPoints]

/-- Unfolding one scheduled feed from the back of the list. -/
lemma runFired_concat (s : Thermocouple) (rs : List DD) (r : DD) :
    runFired s (rs ++ [r]) =
      update (runFired s rs)
        (((runFired s rs).lastUpdate + (runFired s rs).delayTime + 1) % U32) r := by
  unfold runFired
  rw [List.foldl_append]
  rfl

/-- Shape of the deque after feeding a whole list of readings: the
configuration is untouched and the deque is the window-bounded suffix of
all pre-divided readings appended to the initial deque. -/
lemma runFired_points :
    ∀ (rs : List DD) (s : Thermocouple), 0 < s.readingsNumber → s.delayTime + 1 < U32 →
      s.dataPoints.length ≤ s.readingsNumber →
      (runFired s rs).readingsNumber = s.readingsNumber ∧
      (runFired s rs).delayTime = s.delayTime ∧
      (runFired s rs).dataPoints =
        (s.dataPoints ++ rs.map (fun r => ddivN r s.readingsNumber)).drop
          (s.dataPoints.length + rs.length - s.readingsNumber) := by
  intro rs
  induction rs with
  | nil =>
    intro s hw hd hlen
    refine ⟨rfl, rfl, ?_⟩
    rw [List.map_nil, List.append_nil, List.length_nil,
      show s.dataPoints.length + 0 - s.readingsNumber = 0 by omega, List.drop_zero]
    rfl
  | cons r rs ih =>
    intro s hw hd hlen
    have hrun : runFired s (r :: rs) =
        runFired (update s ((s.lastUpdate + s.delayTime + 1) % U32) r) rs := rfl
    have hstep := update_fired r (fires_sched s hd)
    have hpts : (update s ((s.lastUpdate + s.delayTime + 1) % U32) r).dataPoints =
        (s.dataPoints ++ [ddivN r s.readingsNumber]).drop
          (s.dataPoints.length + 1 - s.readingsNumber) := by
      rw [hstep, recalculate_dataPoints]
      exact step_points s (ddivN r s.readingsNumber) hw hlen
    have hw1 : (update s ((s.lastUpdate + s.delayTime + 1) % U32) r).readingsNumber =
        s.readingsNumber := update_readingsNumber _ _ _
    have hd1 : (update s ((s.lastUpdate + s.delayTime + 1) % U32) r).delayTime =
        s.delayTime := update_delayTime _ _ _
    have hlen1 : (update s ((s.lastUpdate + s.delayTime + 1) % U32) r).dataPoints.length ≤
        (update s ((s.lastUpdate + s.delayTime + 1) % U32) r).readingsNumber := by
      rw [hpts, hw1, List.length_drop, List.length_append]
      simp only [List.length_cons, List.length_nil]
      omega
    obtain ⟨ihw, ihd, ihp⟩ := ih (update s ((s.lastUpdate + s.delayTime + 1) % U32) r)
      (by rw [hw1]; exact hw) (by rw [hd1]; exact hd) hlen1
    rw [hrun]
    refine ⟨by rw [ihw, hw1], by rw [ihd, hd1], ?_⟩
    rw [ihp, hw1, hpts]
    rw [List.map_cons,
      show s.dataPoints ++ ddivN r s.readingsNumber :: List.map (fun r => ddivN r s.readingsNumber) rs
        = (s.dataPoints ++ [ddivN r s.readingsNumber]) ++ List.map (fun r => ddivN r s.readingsNumber) rs
        by rw [List.append_assoc]; rfl]
    rw [← List.drop_append_of_le_length
        (show s.dataPoints.length + 1 - s.readingsNumber ≤
            (s.dataPoints ++ [ddivN r s.readingsNumber]).length by
          rw [List.length_append]
          simp only [List.length_cons, List.length_nil]
          omega),
      List.drop_drop]
    congr 1
    rw [List.length_drop, List.length_append]
    simp only [List.length_cons, List.length_nil]
    omega

/-- The mean after feeding a nonempty list of readings obeys the
`recalculate` contract for the final deque. -/
lemma runFired_mean (rs : List DD) (s : Thermocouple) (hw : 0 < s.readingsNumber)
    (hd : s.delayTime + 1 < U32) (hlen : s.dataPoints.length ≤ s.readingsNumber)
    (hne : rs ≠ []) :
    (runFired s rs).meanTempC =
      if (runFired s rs).dataPoints.length = s.readingsNumber
      then (runFired s rs).dataPoints.foldl dadd (some 0) else nanDD := by
  rcases List.eq_nil_or_concat rs with h | ⟨L, b, h⟩
  · exact absurd h hne
  subst h
  rw [List.concat_eq_append, runFired_concat]
  obtain ⟨ihw, ihd, _⟩ := runFired_points L s hw hd hlen
  have hfire : fires (runFired s L)
      (((runFired s L).lastUpdate + (runFired s L).delayTime + 1) % U32) = true :=
    fires_sched _ (by rw [ihd]; exact hd)
  rw [update_fired_mean b hfire, ihw]

/-- Folding `dadd` over finite doubles is exact rational summation. -/
lemma foldl_dadd_some (l : List ℚ) : ∀ a : ℚ,
    (l.map some).foldl dadd (some a) = some (a + l.sum) := by
  induction l with
  | nil => intro a; simp
  | cons x xs ih =>
    intro a
    simp only [List.map_cons, List.foldl_cons, List.sum_cons, dadd, ih, add_assoc]

/-- Summing pre-divided samples equals dividing the sum. -/
lemma sum_map_div (l : List ℚ) (b : ℚ) : (l.map (fun q => q / b)).sum = l.sum / b := by
  induction l with
  | nil => simp
  | cons x xs ih => simp [ih, add_div]

set_option maxRecDepth 10000 in
/-- `spiread` reconstructs a byte clocked in most-significant-bit first. -/
lemma spiread_byteBits (x : ℕ) (hx : x < 256) : spiread (byteBits x) = x := by
  have h : ∀ v : Fin 256, spiread (byteBits v.val) = v.val := by decide
  exact h ⟨x, hx⟩

/-- `value <<= 8; value |= lowByte` concatenates disjoint bit ranges, so it
is plain positional arithmetic. -/
lemma lor_shiftLeft_eq_add (a b : ℕ) (h : b < 256) : (a <<< 8) ||| b = a * 256 + b := by
  apply Nat.eq_of_testBit_eq
  intro i
  rw [Nat.testBit_lor, Nat.testBit_shiftLeft]
  by_cases hi : 8 ≤ i
  · have e2 : (a * 256 + b) / 2^i = a / 2^(i-8) := by
      rw [show (2:ℕ)^i = 2^8 * 2^(i-8) by rw [← pow_add]; congr 1; omega,
          ← Nat.div_div_eq_div_mul]
      congr 1
      rw [show a * 256 + b = b + a * 2^8 by ring,
          Nat.add_mul_div_right _ _ (by norm_num : (0:ℕ) < 2^8),
          Nat.div_eq_of_lt (by omega : b < 2^8), Nat.zero_add]
    have e3 : b.testBit i = false :=
      Nat.testBit_eq_false_of_lt (lt_of_lt_of_le h (by
        calc (256:ℕ) = 2^8 := by norm_num
        _ ≤ 2^i := Nat.pow_le_pow_right (by norm_num) hi))
    simp [hi, e3, Nat.testBit_to_div_mod, e2]
  · have e2 : (a * 256 + b) / 2^i % 2 = b / 2^i % 2 := by
      rw [show a * 256 + b = b + (a * 2^(8-i)) * 2^i by
        rw [mul_assoc, ← pow_add, show 8 - i + i = 8 by omega]; ring]
      rw [Nat.add_mul_div_right _ _ (pow_pos two_pos i)]
      have hdvd : 2 ∣ a * 2^(8-i) :=
        Dvd.dvd.mul_left (dvd_pow_self 2 (by omega : 8 - i ≠ 0)) a
      omega
    simp [hi, Nat.testBit_to_div_mod, e2]

/-- The first 8 sampled levels of a word are its high byte. -/
lemma take8_bitsOf (w : ℕ) : (bitsOf w).take 8 = byteBits (w >>> 8) := by
  show [w.testBit 15, w.testBit 14, w.testBit 13, w.testBit 12, w.testBit 11, w.testBit 10,
    w.testBit 9, w.testBit 8] = byteBits (w >>> 8)
  simp [byteBits, List.range_succ, Nat.testBit_shiftRight]

/-- The last 8 sampled levels of a word are its low byte. -/
lemma drop8_bitsOf (w : ℕ) : (bitsOf w).drop 8 = byteBits (w % 256) := by
  show [w.testBit 7, w.testBit 6, w.testBit 5, w.testBit 4, w.testBit 3, w.testBit 2,
    w.testBit 1, w.testBit 0] = byteBits (w % 256)
  have h : ∀ j, j < 8 → (w % 256).testBit j = w.testBit j := by
    intro j hj
    rw [show (256:ℕ) = 2^8 by norm_num, Nat.testBit_mod_two_pow]
    simp [hj]
  simp [byteBits, List.range_succ, h]

/-- `readValue` on the levels of a 16-bit word `w`: NaN when the
open-thermocouple bit (bit 2) is set, else `(w >> 3) * 0.25` degrees. -/
lemma readValue_word (w : ℕ) (hw : w < 65536) :
    readValue (bitsOf w) =
      if w &&& 4 ≠ 0 then nanDD
      else some (((w >>> 3 : ℕ) : ℚ) * 0.25) := by
  have hhi : w >>> 8 < 256 := by
    rw [Nat.shiftRight_eq_div_pow]
    omega
  have hlo : w % 256 < 256 := Nat.mod_lt _ (by norm_num)
  have hasm : (spiread ((bitsOf w).take 8)) <<< 8 ||| spiread ((bitsOf w).drop 8) = w := by
    rw [take8_bitsOf, drop8_bitsOf, spiread_byteBits _ hhi, spiread_byteBits _ hlo,
      lor_shiftLeft_eq_add _ _ hlo, Nat.shiftRight_eq_div_pow]
    omega
  show (if ((spiread ((bitsOf w).take 8)) <<< 8 ||| spiread ((bitsOf w).drop 8)) &&& 4 ≠ 0
      then nanDD
      else some (((((spiread ((bitsOf w).take 8)) <<< 8 ||| spiread ((bitsOf w).drop 8))
        >>> 3 : ℕ) : ℚ) * 0.25)) = _
  rw [hasm]

/-- C8: Every non-positive (i.e. zero, the types being unsigned)
configuration input is replaced by the documented default (window size 5,
delay 250) and every positive input is kept, both at construction and via
the setters; the coercion is a total function, no error path exists. -/
theorem c8_validate_defaults :
    ∀ (s : Thermocouple) (n t : ℕ) (im : DD),
      (setReadingsNumber s n).readingsNumber = (if 0 < n then n else 5) ∧
      (setDelayTime s t).delayTime = (if 0 < t then t else 250) ∧
      (mkThermocouple n t im).readingsNumber = (if 0 < n then n else 5) ∧
      (mkThermocouple n t im).delayTime = (if 0 < t then t else 250) := by
  intro s n t im
  exact ⟨rfl, rfl, rfl, rfl⟩

/-- C9: `readKelvin` returns the cached mean plus 273.15 and
`readFahrenheit` returns the cached mean times 9/5 plus 32; both conversion
functions are pure total functions of their argument, and NaN propagates
through both. -/
theorem c9_unit_conversions :
    (∀ c : ℚ, celsiusToKelvin (some c) = some (c + 273.15) ∧
      celsiusToFahrenheit (some c) = some (c * 9 / 5 + 32)) ∧
    celsiusToKelvin nanDD = nanDD ∧
    celsiusToFahrenheit nanDD = nanDD ∧
    ∀ s : Thermocouple, readKelvin s = celsiusToKelvin (readCelsius s) ∧
      readFahrenheit s = celsiusToFahrenheit (readCelsius s) := by
  exact ⟨fun c => ⟨rfl, rfl⟩, rfl, rfl, fun s => ⟨rfl, rfl⟩⟩

/-- C10: `setDelayTime` changes only the configured delay: the sample
deque, the window size, the cached mean and the scheduler timestamp are all
left untouched. -/
theorem c10_setDelayTime_frame :
    ∀ (s : Thermocouple) (t : ℕ),
      (setDelayTime s t).dataPoints = s.dataPoints ∧
      (setDelayTime s t).readingsNumber = s.readingsNumber ∧
      (setDelayTime s t).meanTempC = s.meanTempC ∧
      (setDelayTime s t).lastUpdate = s.lastUpdate ∧
      (setDelayTime s t).delayTime = validate t MAX6675_DEFAULT_DELAY_TIME :=
  fun _ _ => ⟨rfl, rfl, rfl, rfl, rfl⟩

/-- C1: the source intends to skip fault reads, but the guard
`if (value != NAN)` uses IEEE `!=`, which is true for every value — NaN
included — so a fault read is pushed into the queue (evicting the oldest
sample at capacity) and the mean is recomputed to NaN.  Concretely: window
size 1, one valid read of 4 °C (mean 4), then a fault read; afterwards the
queue holds `[NaN]` instead of `[4]` and the cached mean is NaN. -/
theorem c1_fault_read_mutates_buffer :
    dne nanDD nanDD = true ∧
    (update (mkThermocouple 1 250 (some 0)) 251 (some 4)).dataPoints = [some 4] ∧
    readCelsius (update (mkThermocouple 1 250 (some 0)) 251 (some 4)) = some 4 ∧
    (update (update (mkThermocouple 1 250 (some 0)) 251 (some 4)) 502 nanDD).dataPoints
      = [nanDD] ∧
    readCelsius (update (update (mkThermocouple 1 250 (some 0)) 251 (some 4)) 502 nanDD)
      = nanDD := by
  norm_num [update, fires, usub32, U32, dne, nanDD, pushSample, recalculate, ddivN, dadd,
    readCelsius, mkThermocouple, validate, MAX6675_DEFAULT_READINGS_NUMBER,
    MAX6675_DEFAULT_DELAY_TIME]

/-- C3 (counterexample): `setReadingsNumber` empties the queue but does not
reset the cached mean, so a state exists whose queue holds fewer than
`readingsNumber` samples while every accessor still returns the old
(non-sentinel) mean: window 1, one valid read of 4 °C, then
`setReadingsNumber(3)`. -/
theorem c3_stale_mean_nonsentinel :
    (setReadingsNumber (update (mkThermocouple 1 250 nanDD) 251 (some 4)) 3).dataPoints.length
        < (setReadingsNumber (update (mkThermocouple 1 250 nanDD) 251 (some 4)) 3).readingsNumber ∧
    readCelsius (setReadingsNumber (update (mkThermocouple 1 250 nanDD) 251 (some 4)) 3)
      = some 4 ∧
    readKelvin (setReadingsNumber (update (mkThermocouple 1 250 nanDD) 251 (some 4)) 3)
      ≠ nanDD ∧
    readFahrenheit (setReadingsNumber (update (mkThermocouple 1 250 nanDD) 251 (some 4)) 3)
      ≠ nanDD := by
  norm_num [update, fires, usub32, U32, dne, nanDD, pushSample, recalculate, ddivN, dadd,
    readCelsius, readKelvin, readFahrenheit, celsiusToKelvin, celsiusToFahrenheit, dmul, ddiv,
    mkThermocouple, setReadingsNumber, validate, MAX6675_DEFAULT_READINGS_NUMBER,
    MAX6675_DEFAULT_DELAY_TIME]
  exact ⟨Option.some_ne_none _, Option.some_ne_none _⟩

/-- C3 (amended): after any `update()` call that passes the time gate, if
the queue then holds fewer than `readingsNumber` samples, all three
temperature accessors return the NaN sentinel.  (The original claim also
covered the states between construction — where the cached mean is an
uninitialized indeterminate value — or a `setReadingsNumber` call — which
leaves the previous mean cached — and the next gated read; there it
fails.) -/
theorem c3_sentinel_while_warming :
    ∀ (s : Thermocouple) (now : ℕ) (v : DD),
      fires s now = true →
      (update s now v).dataPoints.length < (update s now v).readingsNumber →
      readCelsius (update s now v) = nanDD ∧
      readKelvin (update s now v) = nanDD ∧
      readFahrenheit (update s now v) = nanDD := by
  intro s now v hf hlt
  have hc : readCelsius (update s now v) = nanDD := by
    rw [update_fired v hf] at hlt ⊢
    rw [recalculate_dataPoints, recalculate_readingsNumber] at hlt
    rw [readCelsius, recalculate_meanTempC]
    exact if_neg (Nat.ne_of_lt hlt)
  refine ⟨hc, ?_, ?_⟩
  · rw [readKelvin, hc]
    rfl
  · rw [readFahrenheit, hc]
    rfl

/-- Witness for the amended C3: window 2, a single gated valid read. -/
theorem c3_sentinel_while_warming_witness :
    fires (mkThermocouple 2 250 nanDD) 251 = true ∧
    readCelsius (update (mkThermocouple 2 250 nanDD) 251 (some 1)) = nanDD :=
  ⟨by decide, (c3_sentinel_while_warming (mkThermocouple 2 250 nanDD) 251 (some 1)
      (by decide) (by decide)).1⟩

/-- C5: two consecutive `update()` calls whose wraparound 32-bit timestamp
difference is below the configured delay perform at most one protocol
read (the gate is the strict comparison `now - lastUpdate > delayTime` on
unsigned arithmetic), and a gated call leaves the state completely
unchanged. -/
theorem c5_delay_gate :
    ∀ (s : Thermocouple) (t1 t2 : ℕ) (r1 r2 : DD),
      usub32 t2 t1 < s.delayTime →
      ¬(fires s t1 = true ∧ fires (update s t1 r1) t2 = true) ∧
      (fires s t1 = false → update s t1 r1 = s) ∧
      (fires (update s t1 r1) t2 = false →
        update (update s t1 r1) t2 r2 = update s t1 r1) := by
  intro s t1 t2 r1 r2 hlt
  refine ⟨?_, fun hf => update_not_fired r1 hf, fun hf => update_not_fired r2 hf⟩
  rintro ⟨h1, h2⟩
  rw [fires, decide_eq_true_eq, update_delayTime, update_fired_lastUpdate r1 h1] at h2
  omega

/-- Witness for C5: delay 250, reads attempted at 1000 and 1100. -/
theorem c5_delay_gate_witness :
    usub32 1100 1000 < (mkThermocouple 5 250 nanDD).delayTime ∧
    ¬(fires (mkThermocouple 5 250 nanDD) 1000 = true ∧
      fires (update (mkThermocouple 5 250 nanDD) 1000 nanDD) 1100 = true) :=
  ⟨by decide, (c5_delay_gate (mkThermocouple 5 250 nanDD) 1000 1100 nanDD nanDD (by decide)).1⟩

/-- C7 (counterexample): after two valid reads fill a window of 2 (mean
2 °C), `setReadingsNumber(4)` empties the queue but the accessors still
report the old mean 2 °C, not the sentinel, although zero of the four
fresh samples have been collected. -/
theorem c7_stale_mean_after_reconfigure :
    (setReadingsNumber
        (update (update (mkThermocouple 2 250 nanDD) 251 (some 1)) 502 (some 3)) 4).dataPoints
      = [] ∧
    readCelsius (setReadingsNumber
        (update (update (mkThermocouple 2 250 nanDD) 251 (some 1)) 502 (some 3)) 4)
      = some 2 ∧
    readCelsius (setReadingsNumber
        (update (update (mkThermocouple 2 250 nanDD) 251 (some 1)) 502 (some 3)) 4)
      ≠ nanDD := by
  norm_num [update, fires, usub32, U32, dne, nanDD, pushSample, recalculate, ddivN, dadd,
    readCelsius, mkThermocouple, setReadingsNumber, validate,
    MAX6675_DEFAULT_READINGS_NUMBER, MAX6675_DEFAULT_DELAY_TIME]
  exact Option.some_ne_none _

/-- Reachable states always have a positive window size and a deque no
longer than the window. -/
lemma reachable_inv {s : Thermocouple} (h : Reachable s) :
    0 < s.readingsNumber ∧ s.dataPoints.length ≤ s.readingsNumber := by
  induction h with
  | intro n d im =>
    exact ⟨validate_pos (by decide), by simp [mkThermocouple]⟩
  | stepUpdate now v _ ih =>
    rename_i s _
    cases hf : fires s now
    · rw [update_not_fired v hf]
      exact ih
    · rw [update_fired v hf]
      refine ⟨by rw [recalculate_readingsNumber]; exact ih.1, ?_⟩
      rw [recalculate_dataPoints, recalculate_readingsNumber]
      show ((if s.readingsNumber ≤ s.dataPoints.length then s.dataPoints.tail
          else s.dataPoints) ++ [ddivN v s.readingsNumber]).length ≤ s.readingsNumber
      rw [List.length_append]
      simp only [List.length_cons, List.length_nil]
      split <;> rename_i hc
      · rw [List.length_tail]
        omega
      · omega
  | stepSetReadingsNumber n _ _ =>
    exact ⟨validate_pos (by decide), by simp [setReadingsNumber]⟩
  | stepSetDelayTime t _ ih =>
    exact ih

/-- C2: feeding `n ≥ w` valid samples through gated `update` calls leaves
the deque holding exactly the last `w` samples, each pre-divided by `w` at
insertion, and the cached mean is the plain sum of the stored entries
(no division at recompute time), which equals the mean of the last `w`
samples exactly. -/
theorem c2_moving_average :
    ∀ (w d : ℕ) (im : DD) (qs : List ℚ),
      0 < w → 0 < d → d + 1 < U32 → w ≤ qs.length →
      (runFired (mkThermocouple w d im) (qs.map some)).dataPoints
          = (qs.drop (qs.length - w)).map (fun q => some (q / (w : ℚ))) ∧
      (runFired (mkThermocouple w d im) (qs.map some)).meanTempC
          = (runFired (mkThermocouple w d im) (qs.map some)).dataPoints.foldl dadd (some 0) ∧
      (runFired (mkThermocouple w d im) (qs.map some)).meanTempC
          = some ((qs.drop (qs.length - w)).sum / (w : ℚ)) := by
  intro w d im qs hw hd hdu hlen
  set s0 := mkThermocouple w d im with hs0
  have h0w : s0.readingsNumber = w := by
    simp [hs0, mkThermocouple, validate, MAX6675_DEFAULT_READINGS_NUMBER, hw]
  have h0d : s0.delayTime = d := by
    simp [hs0, mkThermocouple, validate, MAX6675_DEFAULT_DELAY_TIME, hd]
  have h0p : s0.dataPoints = [] := rfl
  have h0len : s0.dataPoints.length ≤ s0.readingsNumber := by
    rw [h0p, h0w]
    simp
  obtain ⟨_, _, hp⟩ :=
    runFired_points (qs.map some) s0 (by rw [h0w]; exact hw) (by rw [h0d]; exact hdu) h0len
  have hmapped : (qs.map some).map (fun r => ddivN r s0.readingsNumber)
      = (qs.map (fun q => q / (w : ℚ))).map some := by
    rw [List.map_map, List.map_map]
    apply List.map_congr_left
    intro q _
    simp [Function.comp, ddivN, h0w]
  have hpoints : (runFired s0 (qs.map some)).dataPoints
      = (qs.drop (qs.length - w)).map (fun q => some (q / (w : ℚ))) := by
    rw [hp, hmapped, h0p, h0w, List.nil_append, List.length_nil, List.length_map]
    rw [List.map_drop, List.map_map, Nat.zero_add]
    rfl
  have hne : qs.map some ≠ [] := by
    intro hcon
    rw [List.map_eq_nil_iff] at hcon
    rw [hcon] at hlen
    simp at hlen
    omega
  have hmean := runFired_mean (qs.map some) s0 (by rw [h0w]; exact hw)
    (by rw [h0d]; exact hdu) h0len hne
  have hflen : (runFired s0 (qs.map some)).dataPoints.length = w := by
    rw [hpoints, List.length_map, List.length_drop]
    omega
  rw [h0w, hflen, if_pos rfl] at hmean
  refine ⟨hpoints, hmean, ?_⟩
  rw [hmean, hpoints]
  have : (qs.drop (qs.length - w)).map (fun q => some (q / (w : ℚ)))
      = ((qs.drop (qs.length - w)).map (fun q => q / (w : ℚ))).map some := by
    rw [List.map_map]
    rfl
  rw [this, foldl_dadd_some, sum_map_div, zero_add]

/-- Witness for C2: window 2, delay 250, samples 1, 2, 3 °C. -/
theorem c2_moving_average_witness :
    (runFired (mkThermocouple 2 250 nanDD) ([(1 : ℚ), 2, 3].map some)).dataPoints
        = ([(1 : ℚ), 2, 3].drop ([(1 : ℚ), 2, 3].length - 2)).map
            (fun q => some (q / (2 : ℚ))) ∧
    (runFired (mkThermocouple 2 250 nanDD) ([(1 : ℚ), 2, 3].map some)).meanTempC
        = some (([(1 : ℚ), 2, 3].drop ([(1 : ℚ), 2, 3].length - 2)).sum / (2 : ℚ)) :=
  ⟨(c2_moving_average 2 250 nanDD [1, 2, 3] (by norm_num) (by norm_num)
      (by norm_num [U32]) (by norm_num)).1,
   (c2_moving_average 2 250 nanDD [1, 2, 3] (by norm_num) (by norm_num)
      (by norm_num [U32]) (by norm_num)).2.2⟩

/-- C6: in every reachable state the deque never exceeds the configured
window size, and an `update` that pushes while the deque is at capacity
first evicts the oldest entry (the deque head), so the bound is preserved
by every public operation. -/
theorem c6_capacity_invariant :
    ∀ s : Thermocouple, Reachable s →
      s.dataPoints.length ≤ s.readingsNumber ∧
      ∀ (now : ℕ) (v : DD),
        (update s now v).dataPoints.length ≤ s.readingsNumber ∧
        (fires s now = true → s.dataPoints.length = s.readingsNumber →
          (update s now v).dataPoints
            = s.dataPoints.tail ++ [ddivN v s.readingsNumber]) := by
  intro s hs
  refine ⟨(reachable_inv hs).2, fun now v => ⟨?_, fun hf hcap => ?_⟩⟩
  · have h2 := (reachable_inv (Reachable.stepUpdate now v hs)).2
    rw [update_readingsNumber] at h2
    exact h2
  · rw [update_fired v hf, recalculate_dataPoints]
    show (if s.readingsNumber ≤ s.dataPoints.length then s.dataPoints.tail
        else s.dataPoints) ++ _ = _
    rw [if_pos (le_of_eq hcap.symm)]

/-- Witness for C6: a freshly constructed device is reachable and obeys
the capacity bound. -/
theorem c6_capacity_invariant_witness :
    (mkThermocouple 5 250 nanDD).dataPoints.length
      ≤ (mkThermocouple 5 250 nanDD).readingsNumber :=
  (c6_capacity_invariant (mkThermocouple 5 250 nanDD) (Reachable.intro 5 250 nanDD)).1

/-- C7 (amended): `setReadingsNumber` unconditionally drops all
accumulated samples, leaving a fresh empty deque, and installs the
validated new window size — but it does not reset the cached mean, so the
accessors keep returning the previous mean until the next gated read;
from that read on they return the sentinel until `new window size` fresh
samples have accumulated. -/
theorem c7_reconfigure_drops_history :
    ∀ (s : Thermocouple) (n : ℕ) (rs : List DD),
      (setReadingsNumber s n).dataPoints = [] ∧
      (setReadingsNumber s n).readingsNumber
        = validate n MAX6675_DEFAULT_READINGS_NUMBER ∧
      (setReadingsNumber s n).meanTempC = s.meanTempC ∧
      (s.delayTime + 1 < U32 → 0 < rs.length →
        rs.length < validate n MAX6675_DEFAULT_READINGS_NUMBER →
        readCelsius (runFired (setReadingsNumber s n) rs) = nanDD) := by
  intro s n rs
  refine ⟨rfl, rfl, rfl, fun hd hpos hlt => ?_⟩
  set s1 := setReadingsNumber s n with hs1
  have h0 : 0 < s1.readingsNumber := validate_pos (by decide)
  have hd1 : s1.delayTime = s.delayTime := rfl
  have hlen : s1.dataPoints.length ≤ s1.readingsNumber := by
    show (List.length []) ≤ _
    simp
  have hne : rs ≠ [] := by
    intro hcon
    rw [hcon] at hpos
    simp at hpos
  obtain ⟨_, _, hp⟩ := runFired_points rs s1 h0 (by rw [hd1]; exact hd) hlen
  have hmean := runFired_mean rs s1 h0 (by rw [hd1]; exact hd) hlen hne
  have hw1 : s1.readingsNumber = validate n MAX6675_DEFAULT_READINGS_NUMBER := rfl
  have hp0 : s1.dataPoints = ([] : List DD) := rfl
  have hflen : (runFired s1 rs).dataPoints.length = rs.length := by
    rw [hp, hp0, hw1, List.nil_append, List.length_drop, List.length_map]
    simp only [List.length_nil]
    omega
  rw [readCelsius, hmean, hflen,
    if_neg (show ¬rs.length = s1.readingsNumber from by rw [hw1]; omega)]

/-- Witness for the amended C7: window 2 reconfigured to 3, then one
gated read — the accessor reports the sentinel again. -/
theorem c7_reconfigure_drops_history_witness :
    (setReadingsNumber (mkThermocouple 2 250 nanDD) 3).dataPoints = [] ∧
    readCelsius (runFired (setReadingsNumber (mkThermocouple 2 250 nanDD) 3) [some 7])
      = nanDD :=
  ⟨(c7_reconfigure_drops_history (mkThermocouple 2 250 nanDD) 3 [some 7]).1,
   (c7_reconfigure_drops_history (mkThermocouple 2 250 nanDD) 3 [some 7]).2.2.2
     (by decide) (by decide) (by decide)⟩

/-- C4: for every 16-bit word clocked in MSB-first by the protocol read
with the open-thermocouple bit (bit 2) clear, the decoded Celsius value is
the word shifted right by 3 times 0.25; in particular every raw 12-bit
magnitude `m` (word `m << 3`) decodes to exactly `m * 0.25` degrees. -/
theorem c4_decode :
    (∀ w : ℕ, w < 65536 → w &&& 4 = 0 →
      readValue (bitsOf w) = some (((w >>> 3 : ℕ) : ℚ) * 0.25)) ∧
    (∀ m : ℕ, m < 4096 →
      readValue (bitsOf (m <<< 3)) = some ((m : ℚ) * 0.25)) := by
  constructor
  · intro w hw h4
    rw [readValue_word w hw, if_neg (by simp [h4])]
  · intro m hm
    have h1 : m <<< 3 < 65536 := by
      rw [Nat.shiftLeft_eq]
      omega
    have h4 : (m <<< 3) &&& 4 = 0 := by
      have := Nat.and_two_pow (m <<< 3) 2
      norm_num at this
      exact this
    have h3 : (m <<< 3) >>> 3 = m := by
      rw [Nat.shiftLeft_eq, Nat.shiftRight_eq_div_pow]
      norm_num
    rw [readValue_word _ h1, if_neg (by simp [h4]), h3]

/-- Witness for C4: word 800 (flag clear) decodes to 100 · 0.25 = 25 °C,
and raw magnitude 100 decodes to 25 °C. -/
theorem c4_decode_witness :
    (800 : ℕ) < 65536 ∧ (800 : ℕ) &&& 4 = 0 ∧
    readValue (bitsOf 800) = some (((800 >>> 3 : ℕ) : ℚ) * 0.25) ∧
    (100 : ℕ) < 4096 ∧
    readValue (bitsOf (100 <<< 3)) = some ((100 : ℚ) * 0.25) :=
  ⟨by norm_num, by decide, c4_decode.1 800 (by norm_num) (by decide),
   by norm_num, c4_decode.2 100 (by norm_num)⟩

end MAX6675
